import Mathlib

/-!
Verification of the rs3cache core against its specification.

This file shallowly embeds the byte-reader (`rs3cache_backend/src/buf.rs`),
the envelope decoder (`rs3cache_backend/src/decoder.rs`), the catalog parser
(`rs3cache_core/src/meta.rs`) and the index handle
(`rs3cache_core/src/index.rs`) as executable Lean definitions, and proves the
specification claims about them.

Conventions of the embedding:
- A byte buffer with a cursor (the `bytes::Bytes` cursor of the source) is a
  `Reader`: an immutable list of bytes together with a position.
- Checked reads (`try_get_*`) return `Except ReadError α` paired with the
  reader state after the call, mirroring the in-place mutation of the source.
- Unchecked reads (`get_*`), which can make the process abort in the source,
  return `Option (α × Reader)`; `none` models the abort.
- Machine integers are `Nat` (unsigned) or `Int` (signed, two's complement
  decoded explicitly); strings are lists of Latin-1 code points, that is,
  raw bytes.
-/

namespace Rs3

/-- Equality of `Except` values is decidable when it is on both sides;
witnesses below evaluate read results with `decide`. -/
instance {ε α : Type} [DecidableEq ε] [DecidableEq α] : DecidableEq (Except ε α) := fun
  | .ok a, .ok b =>
    if h : a = b then .isTrue (by rw [h]) else .isFalse (by intro hc; cases hc; exact h rfl)
  | .ok _, .error _ => .isFalse (by intro h; cases h)
  | .error _, .ok _ => .isFalse (by intro h; cases h)
  | .error a, .error b =>
    if h : a = b then .isTrue (by rw [h]) else .isFalse (by intro hc; cases hc; exact h rfl)

/-- A byte source with a cursor, embedding the `bytes::Bytes`-backed cursor
that `BufExtra` in `buf.rs` operates on. `data` never changes; reads only
advance `pos`. -/
structure Reader where
  data : List Nat
  pos : Nat
deriving DecidableEq, Repr

namespace Reader

/-- Number of bytes left, `Buf::remaining`. -/
def remaining (r : Reader) : Nat := r.data.length - r.pos

/-- The byte `i` places after the cursor (0 outside the buffer; reads guard
the length before using it). -/
def byte (r : Reader) (i : Nat) : Nat := r.data.getD (r.pos + i) 0

/-- Advance the cursor by `n` bytes, `Buf::advance`. -/
def advance (r : Reader) (n : Nat) : Reader := ⟨r.data, r.pos + n⟩

/-- The unread remainder of the buffer, `Buf::chunk`. -/
def chunk (r : Reader) : List Nat := r.data.drop r.pos

end Reader

/-- The error kinds of `ReadError` in `buf.rs` (`ReadErrorKind`). The source
also records a call-site location and context frames, which no claim is
about; they are omitted. -/
inductive ReadError where
  | eof
  | notNulTerminated
  | notExhausted
  | opcodeNotImplemented (op : Nat)
  | duplicateOpcode (op : Nat)
deriving DecidableEq, Repr

/-- Big-endian composition of two bytes, as `get_u16` of the `bytes` crate
produces: the first byte is the high-order one. -/
def be16 (b0 b1 : Nat) : Nat := 256 * b0 + b1

/-- Big-endian composition of four bytes, as `get_u32` of the `bytes` crate
produces. -/
def be32 (b0 b1 b2 b3 : Nat) : Nat := 256 * (256 * (256 * b0 + b1) + b2) + b3

/-- Reinterpret a 32-bit unsigned value as a signed one (two's complement),
as `get_i32` of the `bytes` crate produces. -/
def toI32 (v : Nat) : Int := if v < 2147483648 then (v : Int) else (v : Int) - 4294967296

/-- Checked single-byte read, `BufExtra::try_get_u8`. -/
def tryGetU8 (r : Reader) : Except ReadError Nat × Reader :=
  if 1 ≤ r.remaining then (.ok (r.byte 0), r.advance 1) else (.error .eof, r)

/-- Checked big-endian `u16` read, `BufExtra::try_get_u16`. -/
def tryGetU16 (r : Reader) : Except ReadError Nat × Reader :=
  if 2 ≤ r.remaining then (.ok (be16 (r.byte 0) (r.byte 1)), r.advance 2) else (.error .eof, r)

/-- Checked big-endian `i32` read, `BufExtra::try_get_i32`. -/
def tryGetI32 (r : Reader) : Except ReadError Int × Reader :=
  if 4 ≤ r.remaining then
    (.ok (toI32 (be32 (r.byte 0) (r.byte 1) (r.byte 2) (r.byte 3))), r.advance 4)
  else (.error .eof, r)

/-- Checked big-endian `u32` read, `BufExtra::try_get_u32`. -/
def tryGetU32 (r : Reader) : Except ReadError Nat × Reader :=
  if 4 ≤ r.remaining then
    (.ok (be32 (r.byte 0) (r.byte 1) (r.byte 2) (r.byte 3)), r.advance 4)
  else (.error .eof, r)

/-- Big-endian composition of the `n` bytes after the cursor, as
`get_uint(n)` of the `bytes` crate produces. -/
def beVal (r : Reader) (n : Nat) : Nat :=
  (List.range n).foldl (fun acc i => 256 * acc + r.byte i) 0

/-- Checked big-endian `n`-byte unsigned read, `BufExtra::try_get_uint`.
(The underlying `bytes::Buf::get_uint` additionally requires `n ≤ 8`;
theorems about this read carry that bound.) -/
def tryGetUint (n : Nat) (r : Reader) : Except ReadError Nat × Reader :=
  if n ≤ r.remaining then (.ok (beVal r n), r.advance n) else (.error .eof, r)

/-- Checked `unsigned_smart` read, `BufExtra::try_get_unsigned_smart`:
one byte if it is below `0x80`, else that byte (minus `0x80`) and a second
byte as a big-endian pair. -/
def tryGetUnsignedSmart (r : Reader) : Except ReadError Nat × Reader :=
  match tryGetU8 r with
  | (.error e, r1) => (.error e, r1)
  | (.ok i, r1) =>
    if 0x80 ≤ i then
      match tryGetU8 r1 with
      | (.error e, r2) => (.error e, r2)
      | (.ok b2, r2) => (.ok ((i - 0x80) <<< 8 ||| b2), r2)
    else (.ok i, r1)

/-- Checked `smart32` read, `BufExtra::try_get_smart32`: peek one byte; with
the high bit set read a `u32` and mask the high bit off, otherwise read a
`u16`, where `0x7FFF` denotes absence. -/
def tryGetSmart32 (r : Reader) : Except ReadError (Option Nat) × Reader :=
  if 1 ≤ r.remaining then
    if r.byte 0 &&& 0x80 = 0x80 then
      match tryGetU32 r with
      | (.error e, r1) => (.error e, r1)
      | (.ok v, r1) => (.ok (some (v &&& 0x7FFFFFFF)), r1)
    else
      match tryGetU16 r with
      | (.error e, r1) => (.error e, r1)
      | (.ok v, r1) => (.ok (if v = 0x7FFF then none else some v), r1)
  else (.error .eof, r)

/-- Checked terminated-string read, `BufExtra::try_get_string`: scan the
unread chunk for the terminator (`0` outside the legacy `dat` build, which
is the build embedded here), return the bytes before it as Latin-1 code
points and consume them together with the terminator. -/
def tryGetString (r : Reader) : Except ReadError (List Nat) × Reader :=
  match r.chunk.findIdx? (· == 0) with
  | none => (.error .notNulTerminated, r)
  | some n => (.ok (r.chunk.take n), r.advance (n + 1))

/-- Unchecked single-byte read, `Buf::get_u8`; `none` models the abort on an
exhausted buffer. -/
def getU8 (r : Reader) : Option (Nat × Reader) :=
  if 1 ≤ r.remaining then some (r.byte 0, r.advance 1) else none

/-- Unchecked big-endian `u16` read, `Buf::get_u16`. -/
def getU16 (r : Reader) : Option (Nat × Reader) :=
  if 2 ≤ r.remaining then some (be16 (r.byte 0) (r.byte 1), r.advance 2) else none

/-- Unchecked big-endian `u32` read, `Buf::get_u32`. -/
def getU32 (r : Reader) : Option (Nat × Reader) :=
  if 4 ≤ r.remaining then some (be32 (r.byte 0) (r.byte 1) (r.byte 2) (r.byte 3), r.advance 4)
  else none

/-- Unchecked big-endian `i32` read, `Buf::get_i32` (the `read_int` of the
catalog parser). -/
def getI32 (r : Reader) : Option (Int × Reader) :=
  if 4 ≤ r.remaining then
    some (toI32 (be32 (r.byte 0) (r.byte 1) (r.byte 2) (r.byte 3)), r.advance 4)
  else none

/-- Unchecked `smart32` read, `BufExtra::get_smart32`; indexing `chunk()[0]`
on an empty buffer is an abort, modelled as `none`. -/
def getSmart32 (r : Reader) : Option (Option Nat × Reader) :=
  if 1 ≤ r.remaining then
    if r.byte 0 &&& 0x80 = 0x80 then
      (getU32 r).map fun p => (some (p.1 &&& 0x7FFFFFFF), p.2)
    else
      (getU16 r).map fun p => (if p.1 = 0x7FFF then none else some p.1, p.2)
  else none

/-- Unchecked `unsigned_smart` read, `BufExtra::get_unsigned_smart`. -/
def getUnsignedSmart (r : Reader) : Option (Nat × Reader) :=
  (getU8 r).bind fun p =>
    if 0x80 ≤ p.1 then (getU8 p.2).map fun q => ((p.1 - 0x80) <<< 8 ||| q.1, q.2)
    else some (p.1, p.2)

/-- Rust `checked_sub` on unsigned integers. -/
def checkedSub (a b : Nat) : Option Nat := if a < b then none else some (a - b)

/-- The `decr_smart` read, `BufExtra::get_decr_smart`: one byte below 128 is
decremented directly; otherwise a second byte is read, `0x8000` is subtracted
from the big-endian pair (the source unwraps this subtraction, so its failure
is an abort, modelled as `none`), and the result is decremented. A decrement
of 0 is absence. -/
def getDecrSmart (r : Reader) : Option (Option Nat × Reader) :=
  (getU8 r).bind fun p =>
    if p.1 < 128 then some (checkedSub p.1 1, p.2)
    else
      (getU8 p.2).bind fun q =>
        match checkedSub (p.1 <<< 8 ||| q.1) 0x8000 with
        | none => none
        | some v => some (checkedSub v 1, q.2)

/-- One present entry of the masked table: a `smart32` followed by a
`decr_smart`, as pushed by `get_masked_data` when the mask bit is set. -/
def readMaskPair (r : Reader) : Option ((Option Nat × Option Nat) × Reader) :=
  (getSmart32 r).bind fun p => (getDecrSmart p.2).map fun q => ((p.1, q.1), q.2)

/-- The loop of `BufExtra::get_masked_data`: while the mask is positive, a set
low bit appends a decoded `(smart32, decr_smart)` pair and a clear low bit
appends `(none, none)`; the mask is then halved. -/
def getMaskedDataGo (mask : Nat) (r : Reader) :
    Option (List (Option Nat × Option Nat) × Reader) :=
  if h : mask = 0 then some ([], r)
  else if mask &&& 0x1 = 1 then
    (readMaskPair r).bind fun p =>
      (getMaskedDataGo (mask / 2) p.2).map fun q => (p.1 :: q.1, q.2)
  else
    (getMaskedDataGo (mask / 2) r).map fun q => ((none, none) :: q.1, q.2)
termination_by mask
decreasing_by all_goals exact Nat.div_lt_self (Nat.pos_of_ne_zero h) (by omega)

/-- The masked-table read, `BufExtra::get_masked_data`: one mask byte, then
the loop above. -/
def getMaskedData (r : Reader) : Option (List (Option Nat × Option Nat) × Reader) :=
  (getU8 r).bind fun p => getMaskedDataGo p.1 p.2

/-- The reader state just before entry `i` of the masked-table loop on mask
`mask` starting from state `r`: entries with a set bit consume a
`(smart32, decr_smart)` pair, entries with a clear bit consume nothing. -/
def maskStateAt (mask : Nat) (r : Reader) : Nat → Option Reader
  | 0 => some r
  | i + 1 =>
    if mask &&& 0x1 = 1 then (readMaskPair r).bind fun p => maskStateAt (mask / 2) p.2 i
    else maskStateAt (mask / 2) r i

/-- The error kinds of `DecodeError` in `decoder.rs`; the payloads of the
wrapped I/O and bzip2 errors are external to the repository and collapsed. -/
inductive DecodeError where
  | ioError
  | bzip2Error
  | xteaError
  | other (msg : String)
deriving DecidableEq, Repr

/-- The envelope dispatcher `decoder::decompress`, embedded for the build
without the legacy `dat`/`dat2` features (whose arms no claim is about).
The zlib, gzip and bzip2 streams are decoded by external libraries; they are
taken as parameters, so every theorem below holds for all of them. Rust
slice-index aborts and the fallback on an unknown envelope are modelled as
`none`. The byte triple `0x5A, 0x4C, 0x42` is the `b"ZLB"` magic. -/
def decompress (zlibDec gzipDec bzipDec : List Nat → Except DecodeError (List Nat))
    (encoded_data : List Nat) (filesize : Option Nat) :
    Option (Except DecodeError (List Nat)) :=
  let _ := filesize  -- only a buffer pre-sizing hint in the source
  if encoded_data.length < 3 then some (.error (.other "File was empty"))
  else if encoded_data.take 3 = [0x5A, 0x4C, 0x42] then
    if 8 ≤ encoded_data.length then some (zlibDec (encoded_data.drop 8)) else none
  else
    match encoded_data.head? with
    | some 0 =>
      if 5 ≤ encoded_data.length - 2 then
        some (.ok ((encoded_data.drop 5).take (encoded_data.length - 2 - 5)))
      else none
    | some 1 =>
      if 9 ≤ encoded_data.length then
        some (bzipDec ([0x42, 0x5A, 0x68, 0x31] ++ encoded_data.drop 9))
      else none
    | some 2 =>
      if 9 ≤ encoded_data.length then some (gzipDec (encoded_data.drop 9)) else none
    | _ => none

/-- A per-archive catalog entry, `meta::Metadata`, with the field names of
the source. Byte blobs are lists of bytes; the filesize hint fields are kept
as the source's optional integers. -/
structure Metadata where
  index_id : Nat
  archive_id : Nat
  name : Option Int
  crc : Int
  version : Int
  unknown : Option Int
  compressed_size : Option Nat
  size : Option Nat
  digest : Option (List Nat)
  child_count : Nat
  child_indices : List Nat
deriving DecidableEq, Repr

/-- Read `n` successive values with the same reader. -/
def readN {α : Type} (f : Reader → Option (α × Reader)) : Nat → Reader → Option (List α × Reader)
  | 0, r => some ([], r)
  | n + 1, r => (f r).bind fun p => (readN f n p.2).map fun q => (p.1 :: q.1, q.2)

/-- Modelled from the spec: the `Accumulator` adapter of
`rs3cache_core/src/utils` (not under `src/`), which turns the delta-encoded
ids of the catalog into absolute ids by a running prefix sum ("the catalog
stores archive ids and child ids as deltas that must be prefix-summed"; by
the stated invariant the sums fit in `u32`, so they are plain `Nat` sums
here). -/
def accumulate (l : List Nat) : List Nat :=
  go 0 l
where
  go (acc : Nat) : List Nat → List Nat
    | [] => []
    | x :: xs => (acc + x) :: go (acc + x) xs

/-- Insert one key-value pair into an association list sorted by key,
overwriting an equal key: one step of collecting into the `BTreeMap` that
`IndexMetadata` wraps. -/
def insertSorted (k : Nat) (v : Metadata) : List (Nat × Metadata) → List (Nat × Metadata)
  | [] => [(k, v)]
  | (k0, v0) :: rest =>
    if k < k0 then (k, v) :: (k0, v0) :: rest
    else if k = k0 then (k, v) :: rest
    else (k0, v0) :: insertSorted k v rest

/-- Collect a sequence of key-value pairs into a sorted association list, the
`collect::<BTreeMap<_, _>>()` at the end of the catalog parser. -/
def collectBTreeMap (l : List (Nat × Metadata)) : List (Nat × Metadata) :=
  l.foldl (fun m p => insertSorted p.1 p.2 m) []

/-- The tail of `IndexMetadata::deserialize`: zip the per-entry columns into
`Metadata` records keyed by absolute archive id, stopping at the shortest
column exactly as `izip!` does. -/
def zipMeta (index_id : Nat) :
    List Nat → List (Option Int) → List Int → List (Option Int) → List (Option (List Nat)) →
    List (Option Nat × Option Nat) → List Int → List Nat → List (List Nat) →
    List (Nat × Metadata)
  | a :: as_, n :: ns, c :: cs, u :: us, d :: ds, sz :: szs, v :: vs, cc :: ccs, ci :: cis =>
    (a, ⟨index_id, a, n, c, v, u, sz.1, sz.2, d, cc, ci⟩) ::
      zipMeta index_id as_ ns cs us ds szs vs ccs cis
  | _, _, _, _, _, _, _, _, _ => []

/-- Sixty-four raw bytes, the `read_n_bytes(64)` whirlpool digest read. -/
def getNBytes (n : Nat) (r : Reader) : Option (List Nat × Reader) :=
  if n ≤ r.remaining then some (r.chunk.take n, r.advance n) else none

/-- The entry-count/id read of the catalog: a `smart32` whose absence is
unwrapped (an abort, `none`) when the format is at least 7, else a `u16`. -/
def readCatalogId (format : Nat) (r : Reader) : Option (Nat × Reader) :=
  if 7 ≤ format then (getSmart32 r).bind fun p => p.1.map fun v => (v, p.2)
  else getU16 r

/-- The `_index_utc_stamp` read of the catalog parser: a format byte above 5
carries a 4-byte timestamp, read and discarded. -/
def readTimestamp (format : Nat) (r : Reader) : Option Reader :=
  if 5 < format then (getI32 r).map Prod.snd else some r

/-- One optional per-entry column of the catalog
(`if flag { read per entry } else { vec![None; entry_count] }`), used for the
names, `unknown` and digest columns. -/
def readOptColumn {α : Type} (cond : Bool) (f : Reader → Option (α × Reader)) (n : Nat)
    (r : Reader) : Option (List (Option α) × Reader) :=
  if cond then (readN f n r).map fun p => (p.1.map some, p.2)
  else some (List.replicate n none, r)

/-- The `(compressed_size, size)` column of the catalog: two `u32` per entry
when the extended flag is set, else `None` pairs. -/
def readSizes (cond : Bool) (n : Nat) (r : Reader) :
    Option (List (Option Nat × Option Nat) × Reader) :=
  if cond then
    readN (fun r0 => (getU32 r0).bind fun p =>
      (getU32 p.2).map fun q => ((some p.1, some q.1), q.2)) n r
  else some (List.replicate n (none, none), r)

/-- Per-entry child id lists: `child_count` delta-encoded ids each,
prefix-summed. -/
def readChildren (format : Nat) : List Nat → Reader → Option (List (List Nat) × Reader)
  | [], r => some ([], r)
  | c :: cs, r =>
    (readN (readCatalogId format) c r).bind fun p =>
      (readChildren format cs p.2).map fun q => (accumulate p.1 :: q.1, q.2)

/-- The catalog parser `IndexMetadata::deserialize` over the decompressed
catalog blob. The `Buffer` reads it performs (`read_byte`, `read_int`,
`read_bitflags`, `read_smart32`, `read_unsigned_short`, `read_unsigned_int`,
`read_n_bytes`) live in `rs3cache_core/src/buf.rs`, which is not under
`src/`; they are the spec's big-endian primitive reads, identical to the
`BufExtra` reads of `rs3cache_backend/src/buf.rs` embedded above, and are
reused here. Reads past the end of the blob abort (`none`). The result is
the sorted `archive_id → Metadata` map as an association list. -/
def deserialize (index_id : Nat) (data : List Nat) : Option (List (Nat × Metadata)) := do
  let r : Reader := ⟨data, 0⟩
  let (format, r) ← getU8 r
  let r ← readTimestamp format r
  let (flags, r) ← getU8 r
  let named := flags &&& 0x1 != 0
  let hashed := flags &&& 0x2 != 0
  let unk4 := flags &&& 0x4 != 0
  let (entry_count, r) ← readCatalogId format r
  let (deltas, r) ← readN (readCatalogId format) entry_count r
  let archive_ids := accumulate deltas
  let (names, r) ← readOptColumn named getI32 entry_count r
  let (crcs, r) ← readN getI32 entry_count r
  let (unknowns, r) ← readOptColumn unk4 getI32 entry_count r
  let (digests, r) ← readOptColumn hashed (getNBytes 64) entry_count r
  let (sizes, r) ← readSizes unk4 entry_count r
  let (versions, r) ← readN getI32 entry_count r
  let (child_counts, r) ← readN (readCatalogId format) entry_count r
  let (child_indices, _) ← readChildren format child_counts r
  pure (collectBTreeMap
    (zipMeta index_id archive_ids names crcs unknowns digests sizes versions
      child_counts child_indices))

/-- The error kinds of `CacheError` relevant to the index operations; wrapped
read and decode errors keep their payload, the remaining kinds carry what the
claims inspect. -/
inductive CacheError where
  | archiveNotFoundError (index_id : Nat) (archive_id : Nat)
  | fileMissingError (path : String)
  | crcMismatch
  | decode (e : DecodeError)
  | read (e : ReadError)
deriving DecidableEq, Repr

/-- Modelled from the spec: an `Archive` (its constructor lives in `arc.rs`,
which is not under `src/`) is "a decompressed record group identified by
(index_id, archive_id)"; the child-splitting of its payload is opaque to the
claims, so the payload is kept whole. -/
structure Archive where
  index_id : Nat
  archive_id : Nat
  data : List Nat
deriving DecidableEq, Repr

/-- Modelled from the spec: `Archive::deserialize(metadata, data)` constructs
the archive for `metadata` from the store payload `data`. -/
def Archive.deserialize (metadata : Metadata) (data : List Nat) : Archive :=
  ⟨metadata.index_id, metadata.archive_id, data⟩

/-- The state-independent body of `CacheIndex<S>`: its index id, the parsed
catalog (the sorted association list standing for the `BTreeMap` inside
`IndexMetadata`), the path to the backing store, and the store handle. The
store handle (an sqlite connection or a mapped sector file depending on the
variant, with its `get_file` read path outside `src/`) is modelled from the
spec as a function from an archive id to the decompressed payload or an
error. -/
structure CacheIndex where
  index_id : Nat
  metadatas : List (Nat × Metadata)
  path : String
  store : Nat → Except CacheError (List Nat)

/-- `CacheIndex<Truncated>`: the same body plus the retained feed carried by
the `Truncated` state. -/
structure CacheIndexTruncated where
  index : CacheIndex
  feed : List Nat

/-- The key set of the catalog, `IndexMetadata::keys` (`BTreeMap::keys`). -/
def CacheIndex.keys (c : CacheIndex) : List Nat := c.metadatas.map Prod.fst

/-- `BTreeMap::get` on the embedded association list. -/
def lookupMeta (m : List (Nat × Metadata)) (id : Nat) : Option Metadata :=
  List.lookup id m

/-- `CacheIndex::archive`: look the metadata up, failing with
`ArchiveNotFoundError(index_id, archive_id)` when absent, then read the
payload from the store and construct the archive from both. -/
def CacheIndex.archive (c : CacheIndex) (archive_id : Nat) : Except CacheError Archive :=
  match lookupMeta c.metadatas archive_id with
  | none => .error (.archiveNotFoundError c.index_id archive_id)
  | some metadata => (c.store metadata.archive_id).map (Archive.deserialize metadata)

/-- `CacheIndex::<Initial>::retain`: abort (`none`, the source's explicit
panic) when some requested id is not a catalog key, otherwise move every
field unchanged into the `Truncated` state carrying `ids` as the feed. -/
def CacheIndex.retain (c : CacheIndex) (ids : List Nat) : Option CacheIndexTruncated :=
  match ids.find? (fun id => !(c.keys.contains id)) with
  | some _ => none
  | none => some ⟨c, ids⟩

/-- The iterator over an index: the handle plus the feed of archive ids left
to visit (`index::IntoIter`). -/
structure IntoIter where
  index : CacheIndex
  feed : List Nat

/-- `IntoIterator for CacheIndex<Initial>`: the feed is every catalog key. -/
def CacheIndex.into_iter (c : CacheIndex) : IntoIter := ⟨c, c.keys⟩

/-- `IntoIterator for CacheIndex<Truncated>`: the feed is the retained ids;
the handle is rebuilt field-for-field in the `Initial` state. -/
def CacheIndexTruncated.into_iter (t : CacheIndexTruncated) : IntoIter := ⟨t.index, t.feed⟩

/-- The full yield sequence of `Iterator for IntoIter`, whose `next` maps the
next feed id through `CacheIndex::archive`. -/
def IntoIter.items (it : IntoIter) : List (Except CacheError Archive) :=
  it.feed.map it.index.archive

/-- The `BTreeMap` key invariant: the embedded association list is strictly
sorted by key (which the Rust type maintains by construction). -/
def SortedKeys (m : List (Nat × Metadata)) : Prop :=
  List.Chain' (· < ·) (m.map Prod.fst)

instance (m : List (Nat × Metadata)) : Decidable (SortedKeys m) :=
  inferInstanceAs (Decidable (List.Chain' (· < ·) (m.map Prod.fst)))

/-- A concrete stand-in for the external decompression libraries, used by the
closed instances below; the theorems about `decompress` hold for every
decoder, so any choice will do. -/
def dummyDec : List Nat → Except DecodeError (List Nat) :=
  fun _ => .error (.other "unused")

/-- The catalog bytes exactly as the claim lays them out, with `crc = 0` and
`version = 0`: the 4-byte prefix `[0x06, 0x00, 0x00, 0x05]` followed by a
4-byte crc, a 4-byte version, `child_count = 1` as `u16` and a `u16` child
delta of 0. -/
def c2ClaimBytes : List Nat :=
  [0x06, 0x00, 0x00, 0x05] ++ [0, 0, 0, 0] ++ [0, 0, 0, 0] ++ [0x00, 0x01] ++ [0x00, 0x00]

/-- A concrete one-archive catalog entry, index handle and store to
instantiate the index theorems. -/
def sampleMetadata : Metadata := ⟨2, 5, none, 0, 0, none, none, none, none, 1, [0]⟩

/-- A concrete store that fails every read; the index claims are about which
ids are visited, not about payloads. -/
def sampleStore : Nat → Except CacheError (List Nat) := fun _ => .error .crcMismatch

/-- A concrete `Initial`-state index with the single archive id 5. -/
def sampleIndex : CacheIndex := ⟨2, [(5, sampleMetadata)], "js5-2.jcache", sampleStore⟩

@[simp] theorem Reader.advance_data (r : Reader) (n : Nat) : (r.advance n).data = r.data := rfl

@[simp] theorem Reader.advance_pos (r : Reader) (n : Nat) : (r.advance n).pos = r.pos + n := rfl


/-- C8: any input of fewer than 3 bytes makes `decompress` fail with
`Other("File was empty")`, before and regardless of any envelope
recognition (the result does not depend on the input bytes nor on any of
the decompression backends). -/
theorem c8_short_input_is_empty_file (zlibDec gzipDec bzipDec :
    List Nat → Except DecodeError (List Nat)) (encoded_data : List Nat)
    (filesize : Option Nat) (h : encoded_data.length < 3) :
    decompress zlibDec gzipDec bzipDec encoded_data filesize
      = some (.error (.other "File was empty")) := by
  unfold decompress
  simp [h]

/-- Witness for C8 at the empty input. -/
theorem c8_short_input_is_empty_file_witness :
    decompress dummyDec dummyDec dummyDec [] none
      = some (.error (.other "File was empty")) :=
  c8_short_input_is_empty_file dummyDec dummyDec dummyDec [] none (by decide)

/-- C3 counterexample: on the None-envelope input
`[0x00, 0x00, 0x00, 0x00, 0x00, 0x41, 0xAA, 0xBB]`, whose length field is 0,
the claim prescribes the bytes at positions `[5, 0+5)`, that is `[]`, but
`decompress` ignores the length field and returns `[0x41]`. -/
theorem c3_counterexample :
    decompress dummyDec dummyDec dummyDec
        [0x00, 0x00, 0x00, 0x00, 0x00, 0x41, 0xAA, 0xBB] none = some (.ok [0x41])
    ∧ ([0x41] : List Nat) ≠
        (([0x00, 0x00, 0x00, 0x00, 0x00, 0x41, 0xAA, 0xBB] : List Nat).drop 5).take
          (be32 0x00 0x00 0x00 0x00) := by
  constructor
  · rfl
  · decide

/-- C3 (amended): on every input of at least 7 bytes whose first byte is
`0x00`, `decompress` returns the bytes at positions `[5, length − 2)`,
ignoring the big-endian length field at bytes `1..5`; this coincides with
the claimed `[5, len + 5)` exactly when `length = len + 7`. In particular
the concrete input of the claim, for which the two coincide, yields
`"ABC"` (see the witness). -/
theorem c3_none_envelope (zlibDec gzipDec bzipDec :
    List Nat → Except DecodeError (List Nat)) (encoded_data : List Nat)
    (filesize : Option Nat) (h7 : 7 ≤ encoded_data.length)
    (h0 : encoded_data.head? = some 0) :
    decompress zlibDec gzipDec bzipDec encoded_data filesize
      = some (.ok ((encoded_data.drop 5).take (encoded_data.length - 7)))
    ∧ ∀ len, encoded_data.length = len + 7 →
        (encoded_data.drop 5).take (encoded_data.length - 7)
          = (encoded_data.drop 5).take len := by
  constructor
  · match encoded_data, h0 with
    | 0 :: rest, _ =>
      unfold decompress
      have hlen : ¬ (0 :: rest).length < 3 := by
        simp only [List.length_cons] at h7 ⊢; omega
      have hz : ¬ (0 :: rest).take 3 = [0x5A, 0x4C, 0x42] := by
        simp [List.take]
      have hcond : 5 ≤ (0 :: rest).length - 2 := by
        simp only [List.length_cons] at h7 ⊢; omega
      simp only [hlen, if_false, hz, List.head?_cons, hcond, if_true]
      have : (0 :: rest).length - 2 - 5 = (0 :: rest).length - 7 := by omega
      rw [this]
  · intro len hlen
    have : encoded_data.length - 7 = len := by omega
    rw [this]

/-- Witness for C3: the claim's concrete input decodes to `"ABC"`. -/
theorem c3_none_envelope_witness :
    decompress dummyDec dummyDec dummyDec
        [0x00, 0x00, 0x00, 0x00, 0x03, 0x41, 0x42, 0x43, 0xAA, 0xBB] none
      = some (.ok [0x41, 0x42, 0x43]) := by
  have h := (c3_none_envelope dummyDec dummyDec dummyDec
    [0x00, 0x00, 0x00, 0x00, 0x03, 0x41, 0x42, 0x43, 0xAA, 0xBB] none
    (by decide) (by decide)).1
  exact h

/-- C2 counterexample: the claim's layout omits the 4-byte timestamp that a
format byte above 5 requires, so the parse misaligns: with `crc = 0` and
`version = 0` the flag byte and entry count are read out of the crc bytes,
the entry count comes out 0, and the resulting catalog is empty rather than
having the single key 5, so the claimed key 5 is absent. -/
theorem c2_counterexample :
    deserialize 2 c2ClaimBytes = some []
    ∧ (deserialize 2 c2ClaimBytes).map (fun m => lookupMeta m 5) = some none :=
  ⟨rfl, rfl⟩

set_option maxHeartbeats 1600000 in
/-- C2 (amended): the catalog blob for one unnamed, non-hashed, non-extended
archive of one child must carry the 4-byte timestamp after the format byte 6:
for every timestamp, crc and version bytes, the blob
`[0x06, t0, t1, t2, t3, 0x00, 0x00, 0x01, 0x00, 0x05]` (format 6, timestamp,
flags 0, entry count 1 as `u16`, archive-id delta 5 as `u16`) followed by
`[crc:i32, version:i32, child_count:u16 = 1, child_id_delta:u16 = 0]`
deserializes to the map whose only key is 5, whose entry has
`child_indices = [0]`. -/
theorem c2_catalog_one_entry (index_id t0 t1 t2 t3 cr0 cr1 cr2 cr3 v0 v1 v2 v3 : Nat) :
    deserialize index_id
        [0x06, t0, t1, t2, t3, 0x00, 0x00, 0x01, 0x00, 0x05, cr0, cr1, cr2, cr3, v0, v1, v2, v3, 0x00, 0x01, 0x00, 0x00]
      = some [(5, ⟨index_id, 5, none, toI32 (be32 cr0 cr1 cr2 cr3),
          toI32 (be32 v0 v1 v2 v3), none, none, none, none, 1, [0]⟩)] := by
  have s1 : getU8 (⟨[0x06, t0, t1, t2, t3, 0x00, 0x00, 0x01, 0x00, 0x05, cr0, cr1, cr2, cr3, v0, v1, v2, v3, 0x00, 0x01, 0x00, 0x00], 0⟩ : Reader) = some (6, (⟨[0x06, t0, t1, t2, t3, 0x00, 0x00, 0x01, 0x00, 0x05, cr0, cr1, cr2, cr3, v0, v1, v2, v3, 0x00, 0x01, 0x00, 0x00], 1⟩ : Reader)) := rfl
  have s2 : readTimestamp 6 (⟨[0x06, t0, t1, t2, t3, 0x00, 0x00, 0x01, 0x00, 0x05, cr0, cr1, cr2, cr3, v0, v1, v2, v3, 0x00, 0x01, 0x00, 0x00], 1⟩ : Reader) = some (⟨[0x06, t0, t1, t2, t3, 0x00, 0x00, 0x01, 0x00, 0x05, cr0, cr1, cr2, cr3, v0, v1, v2, v3, 0x00, 0x01, 0x00, 0x00], 5⟩ : Reader) := rfl
  have s3 : getU8 (⟨[0x06, t0, t1, t2, t3, 0x00, 0x00, 0x01, 0x00, 0x05, cr0, cr1, cr2, cr3, v0, v1, v2, v3, 0x00, 0x01, 0x00, 0x00], 5⟩ : Reader) = some (0, (⟨[0x06, t0, t1, t2, t3, 0x00, 0x00, 0x01, 0x00, 0x05, cr0, cr1, cr2, cr3, v0, v1, v2, v3, 0x00, 0x01, 0x00, 0x00], 6⟩ : Reader)) := rfl
  have s4 : readCatalogId 6 (⟨[0x06, t0, t1, t2, t3, 0x00, 0x00, 0x01, 0x00, 0x05, cr0, cr1, cr2, cr3, v0, v1, v2, v3, 0x00, 0x01, 0x00, 0x00], 6⟩ : Reader) = some (1, (⟨[0x06, t0, t1, t2, t3, 0x00, 0x00, 0x01, 0x00, 0x05, cr0, cr1, cr2, cr3, v0, v1, v2, v3, 0x00, 0x01, 0x00, 0x00], 8⟩ : Reader)) := rfl
  have s5 : readN (readCatalogId 6) 1 (⟨[0x06, t0, t1, t2, t3, 0x00, 0x00, 0x01, 0x00, 0x05, cr0, cr1, cr2, cr3, v0, v1, v2, v3, 0x00, 0x01, 0x00, 0x00], 8⟩ : Reader) = some ([5], (⟨[0x06, t0, t1, t2, t3, 0x00, 0x00, 0x01, 0x00, 0x05, cr0, cr1, cr2, cr3, v0, v1, v2, v3, 0x00, 0x01, 0x00, 0x00], 10⟩ : Reader)) := rfl
  have s6 : readOptColumn (0 &&& 0x1 != 0) getI32 1 (⟨[0x06, t0, t1, t2, t3, 0x00, 0x00, 0x01, 0x00, 0x05, cr0, cr1, cr2, cr3, v0, v1, v2, v3, 0x00, 0x01, 0x00, 0x00], 10⟩ : Reader) = some ([none], (⟨[0x06, t0, t1, t2, t3, 0x00, 0x00, 0x01, 0x00, 0x05, cr0, cr1, cr2, cr3, v0, v1, v2, v3, 0x00, 0x01, 0x00, 0x00], 10⟩ : Reader)) := rfl
  have s7 : readN getI32 1 (⟨[0x06, t0, t1, t2, t3, 0x00, 0x00, 0x01, 0x00, 0x05, cr0, cr1, cr2, cr3, v0, v1, v2, v3, 0x00, 0x01, 0x00, 0x00], 10⟩ : Reader) = some ([toI32 (be32 cr0 cr1 cr2 cr3)], (⟨[0x06, t0, t1, t2, t3, 0x00, 0x00, 0x01, 0x00, 0x05, cr0, cr1, cr2, cr3, v0, v1, v2, v3, 0x00, 0x01, 0x00, 0x00], 14⟩ : Reader)) := rfl
  have s8 : readOptColumn (0 &&& 0x4 != 0) getI32 1 (⟨[0x06, t0, t1, t2, t3, 0x00, 0x00, 0x01, 0x00, 0x05, cr0, cr1, cr2, cr3, v0, v1, v2, v3, 0x00, 0x01, 0x00, 0x00], 14⟩ : Reader) = some ([none], (⟨[0x06, t0, t1, t2, t3, 0x00, 0x00, 0x01, 0x00, 0x05, cr0, cr1, cr2, cr3, v0, v1, v2, v3, 0x00, 0x01, 0x00, 0x00], 14⟩ : Reader)) := rfl
  have s9 : readOptColumn (0 &&& 0x2 != 0) (getNBytes 64) 1 (⟨[0x06, t0, t1, t2, t3, 0x00, 0x00, 0x01, 0x00, 0x05, cr0, cr1, cr2, cr3, v0, v1, v2, v3, 0x00, 0x01, 0x00, 0x00], 14⟩ : Reader) = some ([none], (⟨[0x06, t0, t1, t2, t3, 0x00, 0x00, 0x01, 0x00, 0x05, cr0, cr1, cr2, cr3, v0, v1, v2, v3, 0x00, 0x01, 0x00, 0x00], 14⟩ : Reader)) := rfl
  have s10 : readSizes (0 &&& 0x4 != 0) 1 (⟨[0x06, t0, t1, t2, t3, 0x00, 0x00, 0x01, 0x00, 0x05, cr0, cr1, cr2, cr3, v0, v1, v2, v3, 0x00, 0x01, 0x00, 0x00], 14⟩ : Reader) = some ([(none, none)], (⟨[0x06, t0, t1, t2, t3, 0x00, 0x00, 0x01, 0x00, 0x05, cr0, cr1, cr2, cr3, v0, v1, v2, v3, 0x00, 0x01, 0x00, 0x00], 14⟩ : Reader)) := rfl
  have s11 : readN getI32 1 (⟨[0x06, t0, t1, t2, t3, 0x00, 0x00, 0x01, 0x00, 0x05, cr0, cr1, cr2, cr3, v0, v1, v2, v3, 0x00, 0x01, 0x00, 0x00], 14⟩ : Reader) = some ([toI32 (be32 v0 v1 v2 v3)], (⟨[0x06, t0, t1, t2, t3, 0x00, 0x00, 0x01, 0x00, 0x05, cr0, cr1, cr2, cr3, v0, v1, v2, v3, 0x00, 0x01, 0x00, 0x00], 18⟩ : Reader)) := rfl
  have s12 : readN (readCatalogId 6) 1 (⟨[0x06, t0, t1, t2, t3, 0x00, 0x00, 0x01, 0x00, 0x05, cr0, cr1, cr2, cr3, v0, v1, v2, v3, 0x00, 0x01, 0x00, 0x00], 18⟩ : Reader) = some ([1], (⟨[0x06, t0, t1, t2, t3, 0x00, 0x00, 0x01, 0x00, 0x05, cr0, cr1, cr2, cr3, v0, v1, v2, v3, 0x00, 0x01, 0x00, 0x00], 20⟩ : Reader)) := rfl
  have s13 : readChildren 6 [1] (⟨[0x06, t0, t1, t2, t3, 0x00, 0x00, 0x01, 0x00, 0x05, cr0, cr1, cr2, cr3, v0, v1, v2, v3, 0x00, 0x01, 0x00, 0x00], 20⟩ : Reader) = some ([[0]], (⟨[0x06, t0, t1, t2, t3, 0x00, 0x00, 0x01, 0x00, 0x05, cr0, cr1, cr2, cr3, v0, v1, v2, v3, 0x00, 0x01, 0x00, 0x00], 22⟩ : Reader)) := rfl
  unfold deserialize
  dsimp only []
  rw [s1]; dsimp only [Option.bind_eq_bind, Option.some_bind]
  rw [s2]; dsimp only [Option.bind_eq_bind, Option.some_bind]
  rw [s3]; dsimp only [Option.bind_eq_bind, Option.some_bind]
  rw [s4]; dsimp only [Option.bind_eq_bind, Option.some_bind]
  rw [s5]; dsimp only [Option.bind_eq_bind, Option.some_bind]
  rw [s6]; dsimp only [Option.bind_eq_bind, Option.some_bind]
  rw [s7]; dsimp only [Option.bind_eq_bind, Option.some_bind]
  rw [s8]; dsimp only [Option.bind_eq_bind, Option.some_bind]
  rw [s9]; dsimp only [Option.bind_eq_bind, Option.some_bind]
  rw [s10]; dsimp only [Option.bind_eq_bind, Option.some_bind]
  rw [s11]; dsimp only [Option.bind_eq_bind, Option.some_bind]
  rw [s12]; dsimp only [Option.bind_eq_bind, Option.some_bind]
  rw [s13]; dsimp only [Option.bind_eq_bind, Option.some_bind]
  rfl

/-- C6: on a buffer with enough remaining bytes, `try_get_smart32` peeks the
first byte; with the high bit set it reads a big-endian `u32` and returns it
with the high bit masked off, otherwise it reads a big-endian `u16` and
returns absence for `0x7FFF` and the value itself otherwise. The claim's
three concrete instances are in the witness. -/
theorem c6_try_get_smart32 (r : Reader)
    (h1 : 1 ≤ r.remaining)
    (h2 : (if r.byte 0 &&& 0x80 = 0x80 then 4 else 2) ≤ r.remaining) :
    tryGetSmart32 r =
      (if r.byte 0 &&& 0x80 = 0x80 then
        (.ok (some (be32 (r.byte 0) (r.byte 1) (r.byte 2) (r.byte 3) &&& 0x7FFFFFFF)),
          r.advance 4)
      else if be16 (r.byte 0) (r.byte 1) = 0x7FFF then (.ok none, r.advance 2)
      else (.ok (some (be16 (r.byte 0) (r.byte 1))), r.advance 2)) := by
  unfold tryGetSmart32 tryGetU32 tryGetU16
  split at h2
  · next hbit => simp [h1, hbit, h2]
  · next hbit => simp only [h1, hbit, if_true, if_false, h2]; split <;> rfl

/-- Witness for C6: the three concrete readings of the claim, each through
the theorem. -/
theorem c6_try_get_smart32_witness :
    (tryGetSmart32 ⟨[0x01, 0x23], 0⟩).1 = .ok (some 0x0123)
    ∧ (tryGetSmart32 ⟨[0x7F, 0xFF], 0⟩).1 = .ok none
    ∧ (tryGetSmart32 ⟨[0x80, 0x00, 0x00, 0x05], 0⟩).1 = .ok (some 5) := by
  refine ⟨?_, ?_, ?_⟩
  · rw [c6_try_get_smart32 ⟨[0x01, 0x23], 0⟩ (by decide) (by decide)]; decide
  · rw [c6_try_get_smart32 ⟨[0x7F, 0xFF], 0⟩ (by decide) (by decide)]; decide
  · rw [c6_try_get_smart32 ⟨[0x80, 0x00, 0x00, 0x05], 0⟩ (by decide) (by decide)]; decide

/-- A byte read out of a well-formed buffer is below 256. -/
theorem byte_lt_256 (r : Reader) (hw : ∀ b ∈ r.data, b < 256) (i : Nat)
    (h : r.pos + i < r.data.length) : r.byte i < 256 := by
  have he : r.byte i = r.data.get ⟨r.pos + i, h⟩ := by
    unfold Reader.byte
    rw [List.getD_eq_getElem?_getD, List.getElem?_eq_getElem h]
    rfl
  rw [he]
  exact hw _ (List.get_mem _ _ _)

/-- The big-endian byte pair `hi << 8 | lo` of the source is plain arithmetic
when the low byte is in range. -/
theorem shiftLeft8_or_eq_add (a b : Nat) (hb : b < 256) : a <<< 8 ||| b = 256 * a + b := by
  have hb2 : b < 2 ^ 8 := by simpa using hb
  rw [Nat.shiftLeft_eq, Nat.mul_comm, ← Nat.mul_add_lt_is_or hb2 a]

/-- C9: on a well-formed buffer whose first byte has the high bit set and
with at least two bytes remaining, the two-byte branch of `get_decr_smart`
does not abort: the 16-bit value `first << 8 | second` is at least `0x8000`,
so the unwrapped `checked_sub(0x8000)` succeeds, and the result is absent
exactly when the `unsigned_smart` value of the same bytes is 0. -/
theorem c9_decr_smart_two_byte (r : Reader)
    (hb : 0x80 ≤ r.byte 0) (h2 : 2 ≤ r.remaining)
    (hw : ∀ b ∈ r.data, b < 256) :
    ∃ ov r2, getDecrSmart r = some (ov, r2)
      ∧ ∃ v r3, getUnsignedSmart r = some (v, r3) ∧ (ov = none ↔ v = 0) := by
  have hlen : r.pos + 2 ≤ r.data.length := by
    unfold Reader.remaining at h2; omega
  have hb0 : r.byte 0 < 256 := byte_lt_256 r hw 0 (by omega)
  have hb1 : r.byte 1 < 256 := byte_lt_256 r hw 1 (by omega)
  have e1 : getU8 r = some (r.byte 0, r.advance 1) := by
    unfold getU8
    rw [if_pos]
    unfold Reader.remaining
    omega
  have e2 : getU8 (r.advance 1) = some (r.byte 1, r.advance 2) := by
    unfold getU8
    rw [if_pos]
    · rfl
    · unfold Reader.remaining
      simp only [Reader.advance_data, Reader.advance_pos]
      omega
  have key1 : r.byte 0 <<< 8 ||| r.byte 1 = 256 * r.byte 0 + r.byte 1 :=
    shiftLeft8_or_eq_add _ _ hb1
  have key2 : (r.byte 0 - 0x80) <<< 8 ||| r.byte 1 = 256 * (r.byte 0 - 0x80) + r.byte 1 :=
    shiftLeft8_or_eq_add _ _ hb1
  have hcs : checkedSub (256 * r.byte 0 + r.byte 1) 0x8000
      = some (256 * r.byte 0 + r.byte 1 - 0x8000) := by
    unfold checkedSub
    rw [if_neg]
    omega
  have d1 : getDecrSmart r
      = some (checkedSub (256 * r.byte 0 + r.byte 1 - 0x8000) 1, r.advance 2) := by
    unfold getDecrSmart
    rw [e1]
    simp only [Option.some_bind]
    rw [if_neg (by omega)]
    rw [e2]
    simp only [Option.some_bind]
    rw [key1, hcs]
  have d2 : getUnsignedSmart r
      = some (256 * (r.byte 0 - 0x80) + r.byte 1, r.advance 2) := by
    unfold getUnsignedSmart
    rw [e1]
    simp only [Option.some_bind]
    rw [if_pos hb, e2]
    simp only [Option.map_some']
    rw [key2]
  refine ⟨_, _, d1, _, _, d2, ?_⟩
  unfold checkedSub
  split
  · next h => simp only [true_iff]; omega
  · next h =>
      constructor
      · intro hc
        exact absurd hc (by simp)
      · intro hv
        omega

/-- Witness for C9 at the buffer `[0x80, 0x00]`, where the decoded
`unsigned_smart` value is 0 and `decr_smart` is absent. -/
theorem c9_decr_smart_two_byte_witness :
    ∃ ov r2, getDecrSmart ⟨[0x80, 0x00], 0⟩ = some (ov, r2)
      ∧ ∃ v r3, getUnsignedSmart ⟨[0x80, 0x00], 0⟩ = some (v, r3) ∧ (ov = none ↔ v = 0) :=
  c9_decr_smart_two_byte ⟨[0x80, 0x00], 0⟩ (by decide) (by decide) (by decide)

/-- Shifting right by a successor is shifting the half. -/
theorem shiftRight_succ_left (m i : Nat) : m >>> (i + 1) = (m / 2) >>> i := by
  induction i with
  | zero => simp [Nat.shiftRight_succ]
  | succ i ih => rw [Nat.shiftRight_succ, ih, Nat.shiftRight_succ]

/-- One unfolding step of `Nat.log2` on an argument of at least 2. -/
theorem log2_step (mask : Nat) (h : 2 ≤ mask) : Nat.log2 mask = Nat.log2 (mask / 2) + 1 := by
  conv_lhs => rw [Nat.log2]
  rw [if_pos h]

/-- The shape of the masked-table loop: on success the list has one entry per
bit position up to the highest set bit of the mask, clear bits yield
`(none, none)`, and each set bit yields the `(smart32, decr_smart)` pair read
at the reader state reached at that position. -/
theorem getMaskedDataGo_spec (mask : Nat) : ∀ r l r1,
    getMaskedDataGo mask r = some (l, r1) →
    (l.length = if mask = 0 then 0 else Nat.log2 mask + 1)
    ∧ (∀ i (hi : i < l.length), (mask >>> i) % 2 = 0 → l.get ⟨i, hi⟩ = (none, none))
    ∧ (∀ i (hi : i < l.length), (mask >>> i) % 2 = 1 →
        ∃ s p s1, maskStateAt mask r i = some s ∧ readMaskPair s = some (p, s1)
          ∧ l.get ⟨i, hi⟩ = p) := by
  induction mask using Nat.strong_induction_on with
  | _ mask ih =>
    intro r l r1 hgo
    rw [getMaskedDataGo] at hgo
    by_cases h0 : mask = 0
    · subst h0
      simp only [dif_pos, Option.some.injEq, Prod.mk.injEq] at hgo
      obtain ⟨hl, _⟩ := hgo
      subst hl
      refine ⟨rfl, ?_, ?_⟩ <;> intro i hi <;> exact absurd hi (by simp)
    · rw [dif_neg h0] at hgo
      have hdiv : mask / 2 < mask := Nat.div_lt_self (Nat.pos_of_ne_zero h0) (by omega)
      by_cases h1 : mask &&& 0x1 = 1
      · rw [if_pos h1] at hgo
        have hmod : mask % 2 = 1 := by rw [← Nat.and_one_is_mod]; exact h1
        cases hrp : readMaskPair r with
        | none => rw [hrp] at hgo; simp at hgo
        | some pr =>
          obtain ⟨p, rp⟩ := pr
          rw [hrp] at hgo
          simp only [Option.some_bind] at hgo
          cases hgo2 : getMaskedDataGo (mask / 2) rp with
          | none => rw [hgo2] at hgo; simp at hgo
          | some q =>
            obtain ⟨l2, r2⟩ := q
            rw [hgo2] at hgo
            simp only [Option.map_some', Option.some.injEq, Prod.mk.injEq] at hgo
            obtain ⟨hl, -⟩ := hgo
            subst hl
            obtain ⟨ihlen, ihzero, ihone⟩ := ih (mask / 2) hdiv rp l2 r2 hgo2
            refine ⟨?_, ?_, ?_⟩
            · simp only [List.length_cons, ihlen, if_neg h0]
              by_cases h2 : mask / 2 = 0
              · have hm1 : mask = 1 := by omega
                subst hm1
                norm_num [Nat.log2]
              · rw [if_neg h2, log2_step mask (by omega)]
            · intro i hi hbit
              cases i with
              | zero =>
                rw [Nat.shiftRight_zero] at hbit
                omega
              | succ i =>
                have hb2 : ((mask / 2) >>> i) % 2 = 0 := by
                  rw [← shiftRight_succ_left]; exact hbit
                simpa using ihzero i (by simpa using hi) hb2
            · intro i hi hbit
              cases i with
              | zero => exact ⟨r, p, rp, rfl, hrp, rfl⟩
              | succ i =>
                have hb2 : ((mask / 2) >>> i) % 2 = 1 := by
                  rw [← shiftRight_succ_left]; exact hbit
                obtain ⟨s, p2, s1, hst, hread, hget⟩ := ihone i (by simpa using hi) hb2
                refine ⟨s, p2, s1, ?_, hread, by simpa using hget⟩
                show maskStateAt mask r (i + 1) = some s
                unfold maskStateAt
                rw [if_pos h1, hrp]
                simpa using hst
      · rw [if_neg h1] at hgo
        have hmod : mask % 2 = 0 := by
          have := Nat.and_one_is_mod mask
          omega
        cases hgo2 : getMaskedDataGo (mask / 2) r with
        | none => rw [hgo2] at hgo; simp at hgo
        | some q =>
          obtain ⟨l2, r2⟩ := q
          rw [hgo2] at hgo
          simp only [Option.map_some', Option.some.injEq, Prod.mk.injEq] at hgo
          obtain ⟨hl, -⟩ := hgo
          subst hl
          obtain ⟨ihlen, ihzero, ihone⟩ := ih (mask / 2) hdiv r l2 r2 hgo2
          have h2 : mask / 2 ≠ 0 := by omega
          refine ⟨?_, ?_, ?_⟩
          · simp only [List.length_cons, ihlen, if_neg h0, if_neg h2]
            rw [log2_step mask (by omega)]
          · intro i hi hbit
            cases i with
            | zero => rfl
            | succ i =>
              have hb2 : ((mask / 2) >>> i) % 2 = 0 := by
                rw [← shiftRight_succ_left]; exact hbit
              simpa using ihzero i (by simpa using hi) hb2
          · intro i hi hbit
            cases i with
            | zero =>
              rw [Nat.shiftRight_zero] at hbit
              omega
            | succ i =>
              have hb2 : ((mask / 2) >>> i) % 2 = 1 := by
                rw [← shiftRight_succ_left]; exact hbit
              obtain ⟨s, p2, s1, hst, hread, hget⟩ := ihone i (by simpa using hi) hb2
              refine ⟨s, p2, s1, ?_, hread, by simpa using hget⟩
              show maskStateAt mask r (i + 1) = some s
              unfold maskStateAt
              rw [if_neg h1]
              exact hst

/-- C7: on any successful `get_masked_data` run with mask byte `m`, the
returned list has length equal to the position of the highest set bit of `m`
plus one (0 for `m = 0`), holds `(absent, absent)` at exactly the positions
whose bit of `m` is clear, and at every set-bit position holds the
`(smart32, decr_smart)` pair decoded at that point of the stream. -/
theorem c7_masked_table (r : Reader) (l : List (Option Nat × Option Nat)) (r1 : Reader)
    (h : getMaskedData r = some (l, r1)) :
    (l.length = if r.byte 0 = 0 then 0 else Nat.log2 (r.byte 0) + 1)
    ∧ (∀ i (hi : i < l.length), (r.byte 0 >>> i) % 2 = 0 → l.get ⟨i, hi⟩ = (none, none))
    ∧ (∀ i (hi : i < l.length), (r.byte 0 >>> i) % 2 = 1 →
        ∃ s p s1, maskStateAt (r.byte 0) (r.advance 1) i = some s
          ∧ readMaskPair s = some (p, s1) ∧ l.get ⟨i, hi⟩ = p) := by
  unfold getMaskedData at h
  unfold getU8 at h
  by_cases hrem : 1 ≤ r.remaining
  · rw [if_pos hrem] at h
    simp only [Option.some_bind] at h
    exact getMaskedDataGo_spec (r.byte 0) (r.advance 1) l r1 h
  · rw [if_neg hrem] at h
    simp at h

/-- Witness for C7 at mask `0b101` (the claim's masked-table scenario): three
entries, the middle one absent. -/
theorem c7_masked_table_witness :
    ∃ l r1, getMaskedData (⟨[5, 1, 35, 5, 1, 35, 5], 0⟩ : Reader) = some (l, r1)
      ∧ l.length = 3 ∧ l.get? 1 = some (none, none) := by
  have hrp1 : readMaskPair (⟨[5, 1, 35, 5, 1, 35, 5], 1⟩ : Reader) = some ((some 291, some 4), (⟨[5, 1, 35, 5, 1, 35, 5], 4⟩ : Reader)) := by decide
  have hrp2 : readMaskPair (⟨[5, 1, 35, 5, 1, 35, 5], 4⟩ : Reader) = some ((some 291, some 4), (⟨[5, 1, 35, 5, 1, 35, 5], 7⟩ : Reader)) := by decide
  have g0 : getMaskedDataGo 0 (⟨[5, 1, 35, 5, 1, 35, 5], 7⟩ : Reader) = some ([], (⟨[5, 1, 35, 5, 1, 35, 5], 7⟩ : Reader)) := by
    rw [getMaskedDataGo]
    rfl
  have g1 : getMaskedDataGo 1 (⟨[5, 1, 35, 5, 1, 35, 5], 4⟩ : Reader) = some ([(some 291, some 4)], (⟨[5, 1, 35, 5, 1, 35, 5], 7⟩ : Reader)) := by
    rw [getMaskedDataGo, dif_neg (by decide), if_pos (by decide), hrp2]
    simp only [Option.some_bind]
    norm_num [g0]
  have g2 : getMaskedDataGo 2 (⟨[5, 1, 35, 5, 1, 35, 5], 4⟩ : Reader)
      = some ([(none, none), (some 291, some 4)], (⟨[5, 1, 35, 5, 1, 35, 5], 7⟩ : Reader)) := by
    rw [getMaskedDataGo, dif_neg (by decide), if_neg (by decide)]
    norm_num [g1]
  have g4 : getMaskedDataGo 5 (⟨[5, 1, 35, 5, 1, 35, 5], 1⟩ : Reader)
      = some ([(some 291, some 4), (none, none), (some 291, some 4)], (⟨[5, 1, 35, 5, 1, 35, 5], 7⟩ : Reader)) := by
    rw [getMaskedDataGo, dif_neg (by decide), if_pos (by decide), hrp1]
    simp only [Option.some_bind]
    norm_num [g2]
  have heval : getMaskedData (⟨[5, 1, 35, 5, 1, 35, 5], 0⟩ : Reader)
      = some ([(some 291, some 4), (none, none), (some 291, some 4)], (⟨[5, 1, 35, 5, 1, 35, 5], 7⟩ : Reader)) := by
    unfold getMaskedData
    rw [show getU8 (⟨[5, 1, 35, 5, 1, 35, 5], 0⟩ : Reader) = some (5, (⟨[5, 1, 35, 5, 1, 35, 5], 1⟩ : Reader)) from by decide]
    simp only [Option.some_bind]
    exact g4
  refine ⟨_, _, heval, ?_, by decide⟩
  have h := (c7_masked_table _ _ _ heval).1
  rw [h]
  norm_num [Reader.byte, Nat.log2]

theorem tryGetU8_ok (r : Reader) (v : Nat) (r1 : Reader)
    (h : tryGetU8 r = (.ok v, r1)) : r1.pos = r.pos + 1 := by
  unfold tryGetU8 at h
  split at h
  · injection h with h1 h2; subst h2; rfl
  · injection h with h1 h2; injection h1

theorem tryGetU8_err (r : Reader) (e : ReadError) (r1 : Reader)
    (h : tryGetU8 r = (.error e, r1)) : r1 = r := by
  unfold tryGetU8 at h
  split at h
  · injection h with h1 h2; injection h1
  · injection h with h1 h2; subst h2; rfl

theorem tryGetU16_ok (r : Reader) (v : Nat) (r1 : Reader)
    (h : tryGetU16 r = (.ok v, r1)) : r1.pos = r.pos + 2 := by
  unfold tryGetU16 at h
  split at h
  · injection h with h1 h2; subst h2; rfl
  · injection h with h1 h2; injection h1

theorem tryGetU16_err (r : Reader) (e : ReadError) (r1 : Reader)
    (h : tryGetU16 r = (.error e, r1)) : r1 = r := by
  unfold tryGetU16 at h
  split at h
  · injection h with h1 h2; injection h1
  · injection h with h1 h2; subst h2; rfl

theorem tryGetI32_ok (r : Reader) (v : Int) (r1 : Reader)
    (h : tryGetI32 r = (.ok v, r1)) : r1.pos = r.pos + 4 := by
  unfold tryGetI32 at h
  split at h
  · injection h with h1 h2; subst h2; rfl
  · injection h with h1 h2; injection h1

theorem tryGetI32_err (r : Reader) (e : ReadError) (r1 : Reader)
    (h : tryGetI32 r = (.error e, r1)) : r1 = r := by
  unfold tryGetI32 at h
  split at h
  · injection h with h1 h2; injection h1
  · injection h with h1 h2; subst h2; rfl

theorem tryGetU32_ok (r : Reader) (v : Nat) (r1 : Reader)
    (h : tryGetU32 r = (.ok v, r1)) : r1.pos = r.pos + 4 := by
  unfold tryGetU32 at h
  split at h
  · injection h with h1 h2; subst h2; rfl
  · injection h with h1 h2; injection h1

theorem tryGetU32_err (r : Reader) (e : ReadError) (r1 : Reader)
    (h : tryGetU32 r = (.error e, r1)) : r1 = r := by
  unfold tryGetU32 at h
  split at h
  · injection h with h1 h2; injection h1
  · injection h with h1 h2; subst h2; rfl

theorem tryGetUint_ok (r : Reader) (n v : Nat) (r1 : Reader)
    (h : tryGetUint n r = (.ok v, r1)) : r1.pos = r.pos + n := by
  unfold tryGetUint at h
  split at h
  · injection h with h1 h2; subst h2; rfl
  · injection h with h1 h2; injection h1

theorem tryGetUint_err (r : Reader) (n : Nat) (e : ReadError) (r1 : Reader)
    (h : tryGetUint n r = (.error e, r1)) : r1 = r := by
  unfold tryGetUint at h
  split at h
  · injection h with h1 h2; injection h1
  · injection h with h1 h2; subst h2; rfl

theorem tryGetSmart32_ok (r : Reader) (v : Option Nat) (r1 : Reader)
    (h : tryGetSmart32 r = (.ok v, r1)) :
    r1.pos = r.pos + (if r.byte 0 &&& 0x80 = 0x80 then 4 else 2) := by
  unfold tryGetSmart32 at h
  by_cases hrem : 1 ≤ r.remaining
  · rw [if_pos hrem] at h
    by_cases hbit : r.byte 0 &&& 0x80 = 0x80
    · rw [if_pos hbit] at h
      rw [if_pos hbit]
      by_cases hrem4 : 4 ≤ r.remaining
      · have e : tryGetU32 r
            = (.ok (be32 (r.byte 0) (r.byte 1) (r.byte 2) (r.byte 3)), r.advance 4) := by
          unfold tryGetU32; rw [if_pos hrem4]
        rw [e] at h
        injection h with h1 h2
        subst h2
        rfl
      · have e : tryGetU32 r = (.error .eof, r) := by
          unfold tryGetU32; rw [if_neg hrem4]
        rw [e] at h
        injection h with h1 h2
        injection h1
    · rw [if_neg hbit] at h
      rw [if_neg hbit]
      by_cases hrem2 : 2 ≤ r.remaining
      · have e : tryGetU16 r = (.ok (be16 (r.byte 0) (r.byte 1)), r.advance 2) := by
          unfold tryGetU16; rw [if_pos hrem2]
        rw [e] at h
        injection h with h1 h2
        subst h2
        rfl
      · have e : tryGetU16 r = (.error .eof, r) := by
          unfold tryGetU16; rw [if_neg hrem2]
        rw [e] at h
        injection h with h1 h2
        injection h1
  · rw [if_neg hrem] at h
    injection h with h1 h2
    injection h1

theorem tryGetSmart32_err (r : Reader) (e : ReadError) (r1 : Reader)
    (h : tryGetSmart32 r = (.error e, r1)) : r1 = r := by
  unfold tryGetSmart32 at h
  by_cases hrem : 1 ≤ r.remaining
  · rw [if_pos hrem] at h
    by_cases hbit : r.byte 0 &&& 0x80 = 0x80
    · rw [if_pos hbit] at h
      by_cases hrem4 : 4 ≤ r.remaining
      · have e4 : tryGetU32 r
            = (.ok (be32 (r.byte 0) (r.byte 1) (r.byte 2) (r.byte 3)), r.advance 4) := by
          unfold tryGetU32; rw [if_pos hrem4]
        rw [e4] at h
        injection h with h1 h2
        injection h1
      · have e4 : tryGetU32 r = (.error .eof, r) := by
          unfold tryGetU32; rw [if_neg hrem4]
        rw [e4] at h
        injection h with h1 h2
        exact h2.symm
    · rw [if_neg hbit] at h
      by_cases hrem2 : 2 ≤ r.remaining
      · have e2 : tryGetU16 r = (.ok (be16 (r.byte 0) (r.byte 1)), r.advance 2) := by
          unfold tryGetU16; rw [if_pos hrem2]
        rw [e2] at h
        injection h with h1 h2
        injection h1
      · have e2 : tryGetU16 r = (.error .eof, r) := by
          unfold tryGetU16; rw [if_neg hrem2]
        rw [e2] at h
        injection h with h1 h2
        exact h2.symm
  · rw [if_neg hrem] at h
    injection h with h1 h2
    exact h2.symm

theorem tryGetString_ok (r : Reader) (v : List Nat) (r1 : Reader)
    (h : tryGetString r = (.ok v, r1)) :
    ∃ n, r.chunk.findIdx? (· == 0) = some n ∧ r1.pos = r.pos + n + 1 := by
  unfold tryGetString at h
  split at h
  · injection h with h1 h2; injection h1
  · next n heq =>
      injection h with h1 h2
      subst h2
      exact ⟨n, heq, rfl⟩

theorem tryGetString_err (r : Reader) (e : ReadError) (r1 : Reader)
    (h : tryGetString r = (.error e, r1)) : r1 = r := by
  unfold tryGetString at h
  split at h
  · injection h with h1 h2; subst h2; rfl
  · injection h with h1 h2; injection h1

theorem tryGetUnsignedSmart_ok (r : Reader) (v : Nat) (r1 : Reader)
    (h : tryGetUnsignedSmart r = (.ok v, r1)) :
    r1.pos = r.pos + (if 0x80 ≤ r.byte 0 then 2 else 1) := by
  unfold tryGetUnsignedSmart at h
  by_cases hrem : 1 ≤ r.remaining
  · have e1 : tryGetU8 r = (.ok (r.byte 0), r.advance 1) := by
      unfold tryGetU8; rw [if_pos hrem]
    rw [e1] at h
    by_cases hge : 0x80 ≤ r.byte 0
    · rw [if_pos hge]
      simp only [if_pos hge] at h
      by_cases hrem2 : 1 ≤ (r.advance 1).remaining
      · have e2 : tryGetU8 (r.advance 1)
            = (.ok ((r.advance 1).byte 0), (r.advance 1).advance 1) := by
          unfold tryGetU8; rw [if_pos hrem2]
        rw [e2] at h
        injection h with h1 h2
        subst h2
        rfl
      · have e2 : tryGetU8 (r.advance 1) = (.error .eof, r.advance 1) := by
          unfold tryGetU8; rw [if_neg hrem2]
        rw [e2] at h
        injection h with h1 h2
        injection h1
    · rw [if_neg hge]
      simp only [if_neg hge] at h
      injection h with h1 h2
      subst h2
      rfl
  · have e1 : tryGetU8 r = (.error .eof, r) := by
      unfold tryGetU8; rw [if_neg hrem]
    rw [e1] at h
    injection h with h1 h2
    injection h1

theorem tryGetUnsignedSmart_err (r : Reader) (e : ReadError) (r1 : Reader)
    (h : tryGetUnsignedSmart r = (.error e, r1)) :
    r1 = r ∨ (r1.pos = r.pos + 1 ∧ r.remaining = 1 ∧ 0x80 ≤ r.byte 0) := by
  unfold tryGetUnsignedSmart at h
  by_cases hrem : 1 ≤ r.remaining
  · have e1 : tryGetU8 r = (.ok (r.byte 0), r.advance 1) := by
      unfold tryGetU8; rw [if_pos hrem]
    rw [e1] at h
    by_cases hge : 0x80 ≤ r.byte 0
    · simp only [if_pos hge] at h
      by_cases hrem2 : 1 ≤ (r.advance 1).remaining
      · have e2 : tryGetU8 (r.advance 1)
            = (.ok ((r.advance 1).byte 0), (r.advance 1).advance 1) := by
          unfold tryGetU8; rw [if_pos hrem2]
        rw [e2] at h
        injection h with h1 h2
        injection h1
      · have e2 : tryGetU8 (r.advance 1) = (.error .eof, r.advance 1) := by
          unfold tryGetU8; rw [if_neg hrem2]
        rw [e2] at h
        injection h with h1 h2
        subst h2
        refine Or.inr ⟨rfl, ?_, hge⟩
        unfold Reader.remaining at hrem hrem2 ⊢
        simp only [Reader.advance_data, Reader.advance_pos] at hrem2
        omega
    · simp only [if_neg hge] at h
      injection h with h1 h2
      injection h1
  · have e1 : tryGetU8 r = (.error .eof, r) := by
      unfold tryGetU8; rw [if_neg hrem]
    rw [e1] at h
    injection h with h1 h2
    exact Or.inl h2.symm

/-- C1 counterexample: `try_get_unsigned_smart` on the one-byte buffer
`[0x80]` consumes the first byte, then fails reading the second, returning
`Eof` with the cursor advanced to 1, not restored to 0. -/
theorem c1_counterexample :
    (tryGetUnsignedSmart ⟨[0x80], 0⟩).1 = .error .eof
    ∧ (tryGetUnsignedSmart ⟨[0x80], 0⟩).2.pos = 1
    ∧ (⟨[0x80], 0⟩ : Reader).pos = 0 :=
  ⟨rfl, rfl, rfl⟩

/-- C1 (amended): every checked read advances the cursor by exactly the bytes
it consumed on success, and every checked read except
`try_get_unsigned_smart` leaves the cursor unchanged on failure;
`try_get_unsigned_smart` either leaves it unchanged or — exactly when its
first byte has the high bit set and is the only byte remaining — fails with
the cursor advanced past that first byte. -/
theorem c1_cursor_contract (r : Reader) :
    ((∀ v r1, tryGetU8 r = (.ok v, r1) → r1.pos = r.pos + 1)
      ∧ ∀ e r1, tryGetU8 r = (.error e, r1) → r1 = r)
    ∧ ((∀ v r1, tryGetU16 r = (.ok v, r1) → r1.pos = r.pos + 2)
      ∧ ∀ e r1, tryGetU16 r = (.error e, r1) → r1 = r)
    ∧ ((∀ v r1, tryGetI32 r = (.ok v, r1) → r1.pos = r.pos + 4)
      ∧ ∀ e r1, tryGetI32 r = (.error e, r1) → r1 = r)
    ∧ ((∀ v r1, tryGetU32 r = (.ok v, r1) → r1.pos = r.pos + 4)
      ∧ ∀ e r1, tryGetU32 r = (.error e, r1) → r1 = r)
    ∧ (∀ n, n ≤ 8 →
        (∀ v r1, tryGetUint n r = (.ok v, r1) → r1.pos = r.pos + n)
        ∧ ∀ e r1, tryGetUint n r = (.error e, r1) → r1 = r)
    ∧ ((∀ v r1, tryGetSmart32 r = (.ok v, r1) →
          r1.pos = r.pos + (if r.byte 0 &&& 0x80 = 0x80 then 4 else 2))
      ∧ ∀ e r1, tryGetSmart32 r = (.error e, r1) → r1 = r)
    ∧ ((∀ v r1, tryGetString r = (.ok v, r1) →
          ∃ n, r.chunk.findIdx? (· == 0) = some n ∧ r1.pos = r.pos + n + 1)
      ∧ ∀ e r1, tryGetString r = (.error e, r1) → r1 = r)
    ∧ ((∀ v r1, tryGetUnsignedSmart r = (.ok v, r1) →
          r1.pos = r.pos + (if 0x80 ≤ r.byte 0 then 2 else 1))
      ∧ ∀ e r1, tryGetUnsignedSmart r = (.error e, r1) →
          r1 = r ∨ (r1.pos = r.pos + 1 ∧ r.remaining = 1 ∧ 0x80 ≤ r.byte 0)) :=
  ⟨⟨tryGetU8_ok r, tryGetU8_err r⟩,
    ⟨tryGetU16_ok r, tryGetU16_err r⟩,
    ⟨tryGetI32_ok r, tryGetI32_err r⟩,
    ⟨tryGetU32_ok r, tryGetU32_err r⟩,
    fun n _ => ⟨fun v r1 h => tryGetUint_ok r n v r1 h, fun e r1 h => tryGetUint_err r n e r1 h⟩,
    ⟨tryGetSmart32_ok r, tryGetSmart32_err r⟩,
    ⟨tryGetString_ok r, tryGetString_err r⟩,
    ⟨tryGetUnsignedSmart_ok r, tryGetUnsignedSmart_err r⟩⟩

/-- Witness for C1: a successful `try_get_u8` advances by one, and the
failing `try_get_unsigned_smart` of the counterexample falls under the
amended disjunction through its right branch. -/
theorem c1_cursor_contract_witness :
    (tryGetU8 ⟨[0x07], 0⟩).2.pos = 0 + 1
    ∧ ((tryGetUnsignedSmart ⟨[0x80], 0⟩).2 = (⟨[0x80], 0⟩ : Reader)
        ∨ ((tryGetUnsignedSmart ⟨[0x80], 0⟩).2.pos = 0 + 1
            ∧ (⟨[0x80], 0⟩ : Reader).remaining = 1
            ∧ 0x80 ≤ (⟨[0x80], 0⟩ : Reader).byte 0)) := by
  constructor
  · exact (c1_cursor_contract ⟨[0x07], 0⟩).1.1 0x07 ⟨[0x07], 1⟩ rfl
  · exact (c1_cursor_contract ⟨[0x80], 0⟩).2.2.2.2.2.2.2.2 ReadError.eof ⟨[0x80], 1⟩ rfl

/-- A `BTreeMap::get` succeeds exactly on the keys of the map. -/
theorem lookup_isSome_iff (m : List (Nat × Metadata)) (id : Nat) :
    (List.lookup id m).isSome = true ↔ id ∈ m.map Prod.fst := by
  induction m with
  | nil => simp [List.lookup]
  | cons p m ih =>
      obtain ⟨k, v⟩ := p
      by_cases hk : id = k
      · subst hk
        simp [List.lookup]
      · have hbeq : (id == k) = false := by simp [hk]
        simp [List.lookup, hbeq, ih]
        exact fun h => absurd h hk

/-- C4: `retain(ids)` panics (modelled as `none`) exactly when some id of
`ids` is not a key of the catalog; otherwise it moves to the `Truncated`
state carrying `ids` as the feed, whose iteration yields the `archive(id)`
result for exactly the ids of `ids`, in the caller-given order. -/
theorem c4_retain_fidelity (c : CacheIndex) (ids : List Nat) :
    (c.retain ids = none ↔ ∃ id ∈ ids, id ∉ c.keys)
    ∧ ∀ t, c.retain ids = some t → t.into_iter.items = ids.map c.archive := by
  constructor
  · unfold CacheIndex.retain
    cases hf : ids.find? (fun id => !(c.keys.contains id)) with
    | none =>
        simp only [List.find?_eq_none] at hf
        simp only [iff_iff_implies_and_implies]
        constructor
        · intro hc
          exact absurd hc (by simp)
        · intro hex
          obtain ⟨id, hmem, hid⟩ := hex
          exact absurd (by simpa using hf id hmem) hid
    | some x =>
        simp only [true_iff]
        refine ⟨x, List.mem_of_find?_eq_some hf, ?_⟩
        have := List.find?_some hf
        simpa using this
  · intro t ht
    unfold CacheIndex.retain at ht
    cases hf : ids.find? (fun id => !(c.keys.contains id)) with
    | none =>
        rw [hf] at ht
        injection ht with ht1
        subst ht1
        rfl
    | some x =>
        rw [hf] at ht
        exact absurd ht (by simp)

/-- Witness for C4: retaining `[5]` on the sample index succeeds and iterates
exactly `[5]`. -/
theorem c4_retain_fidelity_witness :
    (⟨sampleIndex, [5]⟩ : CacheIndexTruncated).into_iter.items
      = [5].map sampleIndex.archive :=
  (c4_retain_fidelity sampleIndex [5]).2 ⟨sampleIndex, [5]⟩ rfl

/-- C5: iteration of an `Initial` index yields exactly one item per catalog
key, in strictly ascending order with no duplicates and no omissions, each
item being `archive(id)` for that key. The hypothesis is the `BTreeMap`
ordering invariant, which the Rust type maintains by construction. -/
theorem c5_initial_iteration (c : CacheIndex) (hs : SortedKeys c.metadatas) :
    c.into_iter.items = c.keys.map c.archive
    ∧ List.Pairwise (· < ·) c.keys
    ∧ c.keys.Nodup
    ∧ ∀ id, id ∈ c.keys ↔ (lookupMeta c.metadatas id).isSome = true := by
  have hp : List.Pairwise (· < ·) c.keys := List.chain'_iff_pairwise.mp hs
  refine ⟨rfl, hp, ?_, ?_⟩
  · exact hp.imp fun h => Nat.ne_of_lt h
  · intro id
    exact (lookup_isSome_iff c.metadatas id).symm

/-- Witness for C5 at the sample index. -/
theorem c5_initial_iteration_witness :
    sampleIndex.into_iter.items = sampleIndex.keys.map sampleIndex.archive
    ∧ List.Pairwise (· < ·) sampleIndex.keys
    ∧ sampleIndex.keys.Nodup
    ∧ ∀ id, id ∈ sampleIndex.keys ↔ (lookupMeta sampleIndex.metadatas id).isSome = true :=
  c5_initial_iteration sampleIndex (by simp [SortedKeys, sampleIndex])

/-- C10: a successful `retain` changes only the state: the `Truncated` index
keeps the same `index_id`, the same catalog, the same path and the same
store handle, and its feed is the given ids. -/
theorem c10_retain_frame (c : CacheIndex) (ids : List Nat) (t : CacheIndexTruncated)
    (h : c.retain ids = some t) :
    t.index.index_id = c.index_id ∧ t.index.metadatas = c.metadatas
    ∧ t.index.path = c.path ∧ t.index.store = c.store ∧ t.feed = ids := by
  unfold CacheIndex.retain at h
  cases hf : ids.find? (fun id => !(c.keys.contains id)) with
  | none =>
      rw [hf] at h
      injection h with h1
      subst h1
      exact ⟨rfl, rfl, rfl, rfl, rfl⟩
  | some x =>
      rw [hf] at h
      exact absurd h (by simp)

/-- Witness for C10 at the sample index. -/
theorem c10_retain_frame_witness :
    (⟨sampleIndex, [5]⟩ : CacheIndexTruncated).index.index_id = sampleIndex.index_id
    ∧ (⟨sampleIndex, [5]⟩ : CacheIndexTruncated).index.metadatas = sampleIndex.metadatas
    ∧ (⟨sampleIndex, [5]⟩ : CacheIndexTruncated).index.path = sampleIndex.path
    ∧ (⟨sampleIndex, [5]⟩ : CacheIndexTruncated).index.store = sampleIndex.store
    ∧ (⟨sampleIndex, [5]⟩ : CacheIndexTruncated).feed = [5] :=
  c10_retain_frame sampleIndex [5] ⟨sampleIndex, [5]⟩ rfl

example : tryGetU16 ⟨[0x01, 0x23], 0⟩ = (.ok 0x0123, ⟨[0x01, 0x23], 2⟩) := by decide
example : (tryGetUnsignedSmart ⟨[0x80], 0⟩).2.pos = 1 := by decide
example : (tryGetSmart32 ⟨[0x80, 0x00, 0x00, 0x05], 0⟩).1 = .ok (some 5) := by decide
example : (tryGetSmart32 ⟨[0x7F, 0xFF], 0⟩).1 = .ok none := by decide
example : tryGetString ⟨[65, 66, 0, 67], 0⟩ = (.ok [65, 66], ⟨[65, 66, 0, 67], 3⟩) := by decide

end Rs3
